import Mathlib

/-!
Verification of the Job-Application-Tracker backend (Django/DRF).

Shallow embedding of the data model (application_app/models.py), the
serializers (application_app/api/serializers.py) and the view-level
operations (application_app/api/views.py).  The database is modelled as
explicit lists of rows; primary keys are integers; the ORM operations
used by the source (filter, get, create, save, delete) become list
operations.  Python truthiness on integers (used by the source in
`if note_id:` and `if not application_id:`) is modelled explicitly:
an integer is falsy exactly when it is 0; an absent or null value is
modelled as none.
-/

namespace JobTracker

/-- A persisted Note row (models.py, class Note): primary key, owning
application (FK, CASCADE), text body and the auto-assigned creation
timestamp. -/
structure Note where
  id : Int
  application : Int
  text : String
  created_at : Nat
  deriving DecidableEq, Repr

/-- A persisted Company row (models.py, class Company): primary key,
nullable owner, name, optional website and industry. -/
structure CompanyRow where
  id : Int
  user : Option Int
  name : String
  website : Option String
  industry : String
  deriving DecidableEq, Repr

/-- A persisted Contact row (models.py, class Contact): primary key,
nullable owner, required company FK and the person fields. -/
structure ContactRow where
  id : Int
  user : Option Int
  company : Int
  first_name : String
  last_name : String
  email : String
  phone : String
  position : String
  deriving DecidableEq, Repr

/-- A persisted Application row (models.py, class Application): primary
key, non-null owner, scalar fields, optional contact FK (SET_NULL) and
the two auto timestamps. Dates are abstracted as naturals. -/
structure ApplicationRow where
  id : Int
  user : Int
  job_title : String
  company : Int
  contact : Option Int
  status : String
  applied_on : Option Nat
  interview_on : Option Nat
  offer_on : Option Nat
  rejected_on : Option Nat
  follow_up_on : Option Nat
  job_posting_link : String
  salary_expectation : Option Nat
  created_at : Nat
  updated_at : Nat
  deriving DecidableEq, Repr

/-- The database state: one table per model plus the auto-increment
counter for Note primary keys (the only table the claims create rows
in). -/
structure Db where
  companies : List CompanyRow
  contacts : List ContactRow
  applications : List ApplicationRow
  notes : List Note
  nextNoteId : Int
  deriving DecidableEq, Repr

/-- A validated nested note payload (NoteSerializer: id is an optional,
nullable IntegerField; the text key may in general be absent, which the
update code handles through dict.get defaults). -/
structure NoteDescr where
  id : Option Int
  text : Option String
  deriving DecidableEq, Repr

/-- The validated_data dictionary passed to ApplicationSerializer.update:
a key absent from the request is absent from the dictionary, hence every
field is an Option.  The contact / date / salary fields are themselves
nullable, hence doubly optional. -/
structure UpdatePayload where
  job_title : Option String
  company : Option Int
  contact : Option (Option Int)
  status : Option String
  applied_on : Option (Option Nat)
  interview_on : Option (Option Nat)
  offer_on : Option (Option Nat)
  rejected_on : Option (Option Nat)
  follow_up_on : Option (Option Nat)
  job_posting_link : Option String
  salary_expectation : Option (Option Nat)
  notes : Option (List NoteDescr)
  deriving DecidableEq, Repr

/-- An update payload with every key absent. -/
def emptyPayload : UpdatePayload :=
  { job_title := none, company := none, contact := none, status := none,
    applied_on := none, interview_on := none, offer_on := none,
    rejected_on := none, follow_up_on := none, job_posting_link := none,
    salary_expectation := none, notes := none }

/-- Error taxonomy of the API surface used by the embedded operations:
DRF NotFound (404), DRF PermissionDenied (403), serializer
ValidationError (400), and an abstract persistence-layer failure. -/
inductive ApiError where
  | notFound
  | permissionDenied
  | validationError
  | dbError
  deriving DecidableEq, Repr

/-- State threaded through the note-reconciliation loop of
ApplicationSerializer.update: the evolving database plus the
incoming_note_ids accumulator (a Python set, modelled as a list queried
by membership). -/
structure RecState where
  db : Db
  incoming : List Int
  deriving DecidableEq, Repr

/-- Primary keys of the notes currently belonging to an application
(instance.notes.all(), indexed by id in the source). -/
def appNoteIds (db : Db) (appId : Int) : List Int :=
  (db.notes.filter (fun nt => nt.application == appId)).map (fun nt => nt.id)

/-- The else-branch of the loop body: Note.objects.create(application=
instance, text=note_data.get(t, d)) with a fresh primary key and the
auto-assigned creation timestamp. -/
def createNoteStep (appId : Int) (now : Nat) (s : RecState) (d : NoteDescr) : RecState :=
  { db := { s.db with
      notes := s.db.notes ++
        [{ id := s.db.nextNoteId, application := appId,
           text := d.text.getD "", created_at := now }],
      nextNoteId := s.db.nextNoteId + 1 },
    incoming := s.incoming }

/-- One iteration of the loop in ApplicationSerializer.update
(serializers.py lines 159-171).  note_id is truthy exactly when it is a
non-null, nonzero integer; a truthy id is added to incoming_note_ids and,
when it indexes a current note, that note's text is overwritten (falling
back to its current text when the incoming descriptor has no text key)
and saved; a falsy id creates a fresh note whose text defaults to the
empty string. -/
def processNoteDescr (appId : Int) (existingIds : List Int) (now : Nat)
    (s : RecState) (d : NoteDescr) : RecState :=
  match d.id with
  | some n =>
    if n ≠ 0 then
      let s1 : RecState := { db := s.db, incoming := s.incoming ++ [n] }
      if existingIds.contains n then
        { db := { s1.db with
            notes := s1.db.notes.map (fun nt =>
              if nt.id = n then { nt with text := d.text.getD nt.text } else nt) },
          incoming := s1.incoming }
      else s1
    else createNoteStep appId now s d
  | none => createNoteStep appId now s d

/-- The note-reconciliation block of ApplicationSerializer.update
(serializers.py lines 153-176): snapshot the application's current note
ids, run the loop over the incoming descriptors, then delete every
current note whose id was not recorded in incoming_note_ids, the delete
being filtered to this application. -/
def reconcileNotes (db : Db) (appId : Int) (notesData : List NoteDescr) (now : Nat) : Db :=
  let existingIds := appNoteIds db appId
  let s := notesData.foldl (processNoteDescr appId existingIds now) { db := db, incoming := [] }
  let toDelete := existingIds.filter (fun i => !(s.incoming.contains i))
  { s.db with
    notes := s.db.notes.filter (fun nt =>
      !(nt.application == appId && toDelete.contains nt.id)) }

/-- super().update(instance, validated_data): setattr every supplied
scalar field on the instance and save it; auto_now stamps updated_at. -/
def applyScalarFields (a : ApplicationRow) (p : UpdatePayload) (now : Nat) : ApplicationRow :=
  { a with
    job_title := p.job_title.getD a.job_title,
    company := p.company.getD a.company,
    contact := p.contact.getD a.contact,
    status := p.status.getD a.status,
    applied_on := p.applied_on.getD a.applied_on,
    interview_on := p.interview_on.getD a.interview_on,
    offer_on := p.offer_on.getD a.offer_on,
    rejected_on := p.rejected_on.getD a.rejected_on,
    follow_up_on := p.follow_up_on.getD a.follow_up_on,
    job_posting_link := p.job_posting_link.getD a.job_posting_link,
    salary_expectation := p.salary_expectation.getD a.salary_expectation,
    updated_at := now }

/-- ApplicationViewSet.get_queryset (views.py line 113):
Application.objects.filter(user=request.user). -/
def applicationQueryset (db : Db) (user : Int) : List ApplicationRow :=
  db.applications.filter (fun a => a.user == user)

/-- DRF get_object for the application detail routes: resolve the URL pk
inside the owner-scoped queryset; a miss is a 404 NotFound, whether the
row is absent or owned by someone else. -/
def getApplicationObject (db : Db) (user : Int) (pk : Int) : Except ApiError ApplicationRow :=
  match (applicationQueryset db user).find? (fun a => a.id == pk) with
  | some a => Except.ok a
  | none => Except.error ApiError.notFound

/-- The update flow without any surrounding transaction: resolve the
object through the scoped queryset, run ApplicationSerializer.update
(notes_data := validated_data.pop(notes, []); reconcile; then apply the
scalar fields).  saveFails abstracts a persistence-layer failure when
the instance itself is saved after the notes were already written; in
that case the dirty state (notes changed, scalars not) is returned
alongside the error. -/
def applicationUpdateRaw (db : Db) (user : Int) (pk : Int) (p : UpdatePayload)
    (now : Nat) (saveFails : Bool) : Db × Option ApiError :=
  match getApplicationObject db user pk with
  | Except.error e => (db, some e)
  | Except.ok inst =>
    let db1 := reconcileNotes db inst.id (p.notes.getD []) now
    if saveFails then (db1, some ApiError.dbError)
    else
      ({ db1 with applications := db1.applications.map (fun a =>
          if a.id = inst.id then applyScalarFields a p now else a) }, none)

/-- Modelled from the spec: the transaction configuration wrapping a
request (the project settings module) is not part of src/; per the spec
the combined field-update-plus-note-reconciliation executes as a single
all-or-nothing transaction, so on any failure the pre-update database is
restored and only the error is reported. -/
def applicationUpdate (db : Db) (user : Int) (pk : Int) (p : UpdatePayload)
    (now : Nat) (saveFails : Bool) : Db × Option ApiError :=
  match applicationUpdateRaw db user pk p now saveFails with
  | (db2, none) => (db2, none)
  | (_, some e) => (db, some e)

/-- DELETE on the application detail route: resolve through the scoped
queryset, then delete the row; the Note FK has on_delete=CASCADE, so the
application's notes are deleted with it. -/
def applicationDelete (db : Db) (user : Int) (pk : Int) : Db × Option ApiError :=
  match getApplicationObject db user pk with
  | Except.error e => (db, some e)
  | Except.ok inst =>
    ({ db with
        applications := db.applications.filter (fun a => !(a.id == inst.id)),
        notes := db.notes.filter (fun nt => !(nt.application == inst.id)) }, none)

/-- NoteViewSet.perform_create (views.py lines 163-191):
request.data.get(application) missing, null or falsy (0) raises NotFound
(the missing-input failure); otherwise Application.objects.get(id=...,
user=request.user) resolves the target constrained to the requester and
a DoesNotExist raises PermissionDenied; only on success is the note
written, attached to the resolved application. -/
def noteCreate (db : Db) (user : Int) (applicationField : Option Int)
    (text : String) (now : Nat) : Db × Option ApiError :=
  match applicationField with
  | none => (db, some ApiError.notFound)
  | some aid =>
    if aid = 0 then (db, some ApiError.notFound)
    else
      match db.applications.find? (fun a => a.id == aid && a.user == user) with
      | some inst =>
        ({ db with
            notes := db.notes ++
              [{ id := db.nextNoteId, application := inst.id,
                 text := text, created_at := now }],
            nextNoteId := db.nextNoteId + 1 }, none)
      | none => (db, some ApiError.permissionDenied)

/-- ContactSerializer.company_id (serializers.py lines 26-28): a
PrimaryKeyRelatedField whose queryset is Company.objects.all() — not
narrowed to the requesting user. -/
def contactCompanyChoices (db : Db) : List CompanyRow :=
  db.companies

/-- ApplicationSerializer.__init__ (serializers.py line 110): the
company_id queryset is Company.objects.filter(user=user). -/
def applicationCompanyChoices (db : Db) (user : Int) : List CompanyRow :=
  db.companies.filter (fun c => c.user == some user)

/-- ApplicationSerializer.__init__ (serializers.py line 111): the
contact_id queryset is Contact.objects.filter(user=user). -/
def applicationContactChoices (db : Db) (user : Int) : List ContactRow :=
  db.contacts.filter (fun c => c.user == some user)

/-- PrimaryKeyRelatedField validation: the raw primary key must resolve
inside the field's queryset, otherwise the serializer reports a
ValidationError for the field. -/
def validateCompanyRef (choices : List CompanyRow) (raw : Int) : Except ApiError CompanyRow :=
  match choices.find? (fun c => c.id == raw) with
  | some c => Except.ok c
  | none => Except.error ApiError.validationError

/-- PrimaryKeyRelatedField validation for contact references, as for
validateCompanyRef. -/
def validateContactRef (choices : List ContactRow) (raw : Int) : Except ApiError ContactRow :=
  match choices.find? (fun c => c.id == raw) with
  | some c => Except.ok c
  | none => Except.error ApiError.validationError

/-- An application row with the given key and owner and innocuous scalar
fields, used to build concrete database states. -/
def mkApp (i u : Int) : ApplicationRow :=
  { id := i, user := u, job_title := "dev", company := 1, contact := none,
    status := "DRAFT", applied_on := none, interview_on := none,
    offer_on := none, rejected_on := none, follow_up_on := none,
    job_posting_link := "", salary_expectation := none,
    created_at := 0, updated_at := 0 }

/-- The hypothesis of the idempotence claim: every incoming descriptor
carries the id of one of the application's current notes together with
exactly that note's current text. -/
def matchesCurrent (db : Db) (appId : Int) (l : List NoteDescr) : Prop :=
  ∀ d ∈ l, ∃ nt, nt ∈ db.notes ∧ nt.application = appId ∧ nt.id ≠ 0 ∧
    d.id = some nt.id ∧ d.text = some nt.text

/-- A two-user database: application 1 owned by identity 1, application
2 owned by identity 2. -/
def dbIso : Db :=
  { companies := [], contacts := [], applications := [mkApp 1 1, mkApp 2 2],
    notes := [], nextNoteId := 1 }

/-- A database holding one application (id 1, owner 1) with a single
note (id 1, text a). -/
def dbOneNote : Db :=
  { companies := [], contacts := [], applications := [mkApp 1 1],
    notes := [{ id := 1, application := 1, text := "a", created_at := 0 }],
    nextNoteId := 7 }

/-- An update payload whose notes key is present and holds the empty
list, every other key absent. -/
def payloadEmptyNotes : UpdatePayload :=
  { emptyPayload with notes := some [] }

/-- A company and a contact, both owned by identity 1: the state in
which identity 2 attempts to reference them. -/
def dbCompA : Db :=
  { companies := [{ id := 1, user := some 1, name := "Acme", website := none, industry := "" }],
    contacts := [{ id := 1, user := some 1, company := 1, first_name := "E",
                   last_name := "M", email := "", phone := "", position := "" }],
    applications := [], notes := [], nextNoteId := 1 }

/- ------------------------------------------------------------------ -/
/- Helper lemmas.                                                      -/
/- ------------------------------------------------------------------ -/

/-- Mapping a function that fixes every element of a list is the
identity on that list. -/
theorem list_map_eq_self {α : Type} {f : α → α} {l : List α}
    (h : ∀ x ∈ l, f x = x) : l.map f = l := by
  calc l.map f = l.map id := List.map_congr_left h
  _ = l := List.map_id l

/-- find? returns the unique element satisfying the predicate. -/
theorem list_find?_eq_some_of_unique {α : Type} {p : α → Bool} {l : List α} {a : α}
    (ha : a ∈ l) (hpa : p a = true) (huniq : ∀ b ∈ l, p b = true → b = a) :
    l.find? p = some a := by
  induction l with
  | nil => cases ha
  | cons x xs ih =>
    by_cases hx : p x = true
    · have hxa : x = a := huniq x (List.mem_cons_self x xs) hx
      rw [List.find?_cons_of_pos xs hx, hxa]
    · have hax : a ∈ xs := by
        rcases List.mem_cons.mp ha with h | h
        · exact absurd (h ▸ hpa) hx
        · exact h
      rw [List.find?_cons_of_neg xs hx]
      exact ih hax (fun b hb hpb => huniq b (List.mem_cons_of_mem x hb) hpb)

/- ------------------------------------------------------------------ -/
/- Claim theorems.                                                     -/
/- ------------------------------------------------------------------ -/

/-- C1: for distinct identities A and B, an application owned by A never
appears in B's list queryset, and retrieve, update and delete issued by
B on its id all fail with NotFound (never PermissionDenied), leaving the
database unchanged.  Primary keys are unique (hnd), as the store
guarantees. -/
theorem application_owner_isolation (db : Db) (A B : Int) (app : ApplicationRow)
    (p : UpdatePayload) (now : Nat) (saveFails : Bool)
    (hAB : A ≠ B)
    (hnd : (db.applications.map (fun a => a.id)).Nodup)
    (hmem : app ∈ db.applications) (hA : app.user = A) :
    app ∉ applicationQueryset db B ∧
    getApplicationObject db B app.id = Except.error ApiError.notFound ∧
    applicationUpdate db B app.id p now saveFails = (db, some ApiError.notFound) ∧
    applicationDelete db B app.id = (db, some ApiError.notFound) := by
  have hget : getApplicationObject db B app.id = Except.error ApiError.notFound := by
    have hnone : (applicationQueryset db B).find? (fun a => a.id == app.id) = none := by
      apply List.find?_eq_none.mpr
      intro x hx hpk
      have hx' := List.mem_filter.mp hx
      have hxid : x.id = app.id := by simpa using hpk
      have hxB : x.user = B := by simpa using hx'.2
      have hxa : x = app :=
        List.inj_on_of_nodup_map hnd hx'.1 hmem hxid
      exact hAB (by rw [← hA, ← hxa, hxB])
    simp [getApplicationObject, hnone]
  refine ⟨?_, hget, ?_, ?_⟩
  · intro hmem'
    have h := List.mem_filter.mp hmem'
    have : app.user = B := by simpa using h.2
    exact hAB (by rw [← hA, this])
  · simp [applicationUpdate, applicationUpdateRaw, hget]
  · simp [applicationDelete, hget]

/-- Witness for C1 at a concrete two-user database. -/
theorem application_owner_isolation_witness :
    ((1 : Int) ≠ 2) ∧
    (mkApp 1 1 ∉ applicationQueryset dbIso 2 ∧
     getApplicationObject dbIso 2 (mkApp 1 1).id = Except.error ApiError.notFound ∧
     applicationUpdate dbIso 2 (mkApp 1 1).id emptyPayload 9 false = (dbIso, some ApiError.notFound) ∧
     applicationDelete dbIso 2 (mkApp 1 1).id = (dbIso, some ApiError.notFound)) :=
  ⟨by decide,
   application_owner_isolation dbIso 1 2 (mkApp 1 1) emptyPayload 9 false
     (by decide) (by decide) (by decide) (by decide)⟩

/-- C2 (code evaluation at the failing input): a PATCH-style update that
omits the notes key entirely (validated_data has no notes entry) deletes
every existing note of the application, because the source pops the
notes key with an empty-list default and the deletion step then sees no
retained ids.  The claim (and the spec) require the notes to be left
untouched. -/
theorem omitted_notes_key_deletes_all_notes :
    (applicationUpdate dbOneNote 1 1 emptyPayload 9 false).fst.notes = [] ∧
    dbOneNote.notes ≠ [] := by
  constructor
  · rfl
  · decide

/-- C4: the combined scalar-field-plus-notes update is atomic — whenever
the update reports any error (object not found, or the persistence
failure abstracted by saveFails), the resulting database is exactly the
pre-update database; no partial commit survives.  The transactional
rollback is modelled from the spec, the transaction configuration not
being part of src/. -/
theorem application_update_atomic (db : Db) (user pk : Int) (p : UpdatePayload)
    (now : Nat) (saveFails : Bool) (e : ApiError)
    (h : (applicationUpdate db user pk p now saveFails).snd = some e) :
    (applicationUpdate db user pk p now saveFails).fst = db := by
  unfold applicationUpdate at h ⊢
  rcases hraw : applicationUpdateRaw db user pk p now saveFails with ⟨db2, err⟩
  cases err with
  | none =>
    rw [hraw] at h
    exact Option.noConfusion h
  | some e2 => rfl

/-- Witness for C4: the scalar save fails after the note deletion was
already processed; the raw (untransacted) state has lost the note, yet
the update reports the pre-update database unchanged. -/
theorem application_update_atomic_witness :
    (applicationUpdate dbOneNote 1 1 payloadEmptyNotes 9 true).snd = some ApiError.dbError ∧
    (applicationUpdate dbOneNote 1 1 payloadEmptyNotes 9 true).fst = dbOneNote ∧
    (applicationUpdateRaw dbOneNote 1 1 payloadEmptyNotes 9 true).fst.notes = [] :=
  ⟨by decide,
   application_update_atomic dbOneNote 1 1 payloadEmptyNotes 9 true ApiError.dbError (by decide),
   by decide⟩

/-- C5 counterexample: a request whose application identifier is the
integer 0 does not resolve to any application of the requester, yet note
creation fails with the missing-input NotFound error, not the
PermissionDenied error the claim requires for every non-resolving
identifier — Python truthiness routes 0 into the missing-id branch. -/
theorem note_create_zero_id_cex :
    noteCreate dbIso 1 (some 0) "x" 9 = (dbIso, some ApiError.notFound) ∧
    (∀ a ∈ dbIso.applications, ¬(a.id = 0 ∧ a.user = 1)) ∧
    ApiError.notFound ≠ ApiError.permissionDenied := by
  refine ⟨rfl, by decide, by decide⟩

/-- C5 (amended): an absent application identifier fails with the
missing-input NotFound error; a nonzero identifier that resolves to no
application owned by the requester fails with PermissionDenied; the two
errors are distinct; in both cases the database is returned unchanged,
so no note is written. -/
theorem note_create_error_modes (db : Db) (user : Int) (text : String)
    (now : Nat) (aid : Int) (hz : aid ≠ 0)
    (hno : ∀ a ∈ db.applications, ¬(a.id = aid ∧ a.user = user)) :
    noteCreate db user none text now = (db, some ApiError.notFound) ∧
    noteCreate db user (some aid) text now = (db, some ApiError.permissionDenied) ∧
    ApiError.notFound ≠ ApiError.permissionDenied := by
  refine ⟨rfl, ?_, by decide⟩
  have hfind : db.applications.find? (fun a => a.id == aid && a.user == user) = none := by
    apply List.find?_eq_none.mpr
    intro a ha h
    have h' : a.id = aid ∧ a.user = user := by simpa using h
    exact hno a ha h'
  simp [noteCreate, hz, hfind]

/-- Witness for C5 (amended) at a concrete database and the nonzero
unresolvable identifier 3. -/
theorem note_create_error_modes_witness :
    ((3 : Int) ≠ 0) ∧
    (∀ a ∈ dbIso.applications, ¬(a.id = 3 ∧ a.user = 1)) ∧
    (noteCreate dbIso 1 none "x" 9 = (dbIso, some ApiError.notFound) ∧
     noteCreate dbIso 1 (some 3) "x" 9 = (dbIso, some ApiError.permissionDenied) ∧
     ApiError.notFound ≠ ApiError.permissionDenied) :=
  ⟨by decide, by decide, note_create_error_modes dbIso 1 "x" 9 3 (by decide) (by decide)⟩

/-- C6 counterexample: a descriptor carrying the identifier 0, which
matches none of the application's current notes (the only current note
has id 1), is not ignored: the code creates a brand-new note with a
server-assigned id and the descriptor's text (and, 0 not being recorded
as retained, the deletion step still runs on the current notes). -/
theorem zero_id_descriptor_creates_note_cex :
    (reconcileNotes dbOneNote 1 [{ id := some 0, text := some "x" }] 5).notes
      = [{ id := 7, application := 1, text := "x", created_at := 5 }] := by
  rfl

/-- C6 (amended): a descriptor carrying a non-null, nonzero identifier
that matches none of the application's current notes is silently
skipped: the loop step leaves the database exactly as it was — no note
created, no error reported — and only records the identifier in
incoming_note_ids, so the deletion step is unaffected by it. -/
theorem stale_note_id_noop (appId : Int) (existingIds : List Int) (now : Nat)
    (s : RecState) (n : Int) (t : Option String)
    (hz : n ≠ 0) (hni : existingIds.contains n = false) :
    processNoteDescr appId existingIds now s { id := some n, text := t }
      = { db := s.db, incoming := s.incoming ++ [n] } := by
  have hmem : n ∉ existingIds := by simpa using hni
  simp [processNoteDescr, hz, hmem]

/-- Witness for C6 (amended) at concrete loop state. -/
theorem stale_note_id_noop_witness :
    ((3 : Int) ≠ 0) ∧
    (([1, 2] : List Int).contains 3 = false) ∧
    processNoteDescr 1 [1, 2] 9 { db := dbOneNote, incoming := [5] }
        { id := some 3, text := some "x" }
      = { db := dbOneNote, incoming := [5] ++ [3] } :=
  ⟨by decide, by decide,
   stale_note_id_noop 1 [1, 2] 9 { db := dbOneNote, incoming := [5] } 3 (some "x")
     (by decide) (by decide)⟩

/-- C7 counterexample: identity 2 supplies the id of a company owned by
identity 1 when creating a contact; the contact serializer's company
field accepts it (its queryset is all companies, ignoring the
requester), while the same id on the application serializer's company
field — the narrowed path — is rejected. -/
theorem contact_company_cross_owner_accepted_cex :
    validateCompanyRef (contactCompanyChoices dbCompA) 1
      = Except.ok { id := 1, user := some 1, name := "Acme", website := none, industry := "" } ∧
    validateCompanyRef (applicationCompanyChoices dbCompA 2) 1
      = Except.error ApiError.validationError := by
  constructor <;> rfl

/-- C7 (amended): for application create/update the acceptable company
and contact references are narrowed to the requesting identity's own
records — a cross-owner id fails validation — whereas the contact
serializer's company reference is not narrowed: any stored company's id
validates successfully regardless of its owner. -/
theorem fk_scoping_amended (db : Db) (user raw : Int) (c : CompanyRow) (ct : ContactRow)
    (hndC : (db.companies.map (fun x => x.id)).Nodup)
    (hndT : (db.contacts.map (fun x => x.id)).Nodup)
    (hc : c ∈ db.companies) (hcid : c.id = raw) (hcu : c.user ≠ some user)
    (hct : ct ∈ db.contacts) (hctu : ct.user ≠ some user) :
    validateCompanyRef (applicationCompanyChoices db user) raw
      = Except.error ApiError.validationError ∧
    validateContactRef (applicationContactChoices db user) ct.id
      = Except.error ApiError.validationError ∧
    validateCompanyRef (contactCompanyChoices db) raw = Except.ok c := by
  refine ⟨?_, ?_, ?_⟩
  · have hnone : (applicationCompanyChoices db user).find? (fun x => x.id == raw) = none := by
      apply List.find?_eq_none.mpr
      intro x hx hpk
      have hx' := List.mem_filter.mp hx
      have hxu : x.user = some user := by simpa using hx'.2
      have hxid : x.id = c.id := by
        have : x.id = raw := by simpa using hpk
        rw [this, hcid]
      have hxc : x = c := List.inj_on_of_nodup_map hndC hx'.1 hc hxid
      exact hcu (by rw [← hxc, hxu])
    simp [validateCompanyRef, hnone]
  · have hnone : (applicationContactChoices db user).find? (fun x => x.id == ct.id) = none := by
      apply List.find?_eq_none.mpr
      intro x hx hpk
      have hx' := List.mem_filter.mp hx
      have hxu : x.user = some user := by simpa using hx'.2
      have hxid : x.id = ct.id := by simpa using hpk
      have hxc : x = ct := List.inj_on_of_nodup_map hndT hx'.1 hct hxid
      exact hctu (by rw [← hxc, hxu])
    simp [validateContactRef, hnone]
  · have hfind : db.companies.find? (fun x => x.id == raw) = some c := by
      apply list_find?_eq_some_of_unique hc
      · simp [hcid]
      · intro b hb hpb
        have hbid : b.id = c.id := by
          have : b.id = raw := by simpa using hpb
          rw [this, hcid]
        exact List.inj_on_of_nodup_map hndC hb hc hbid
    simp [validateCompanyRef, contactCompanyChoices, hfind]

/-- Witness for C7 (amended) at the concrete cross-owner database. -/
theorem fk_scoping_amended_witness :
    (validateCompanyRef (applicationCompanyChoices dbCompA 2) 1
       = Except.error ApiError.validationError ∧
     validateContactRef (applicationContactChoices dbCompA 2)
         ({ id := 1, user := some 1, company := 1, first_name := "E",
            last_name := "M", email := "", phone := "", position := "" } : ContactRow).id
       = Except.error ApiError.validationError ∧
     validateCompanyRef (contactCompanyChoices dbCompA) 1
       = Except.ok { id := 1, user := some 1, name := "Acme", website := none, industry := "" }) :=
  fk_scoping_amended dbCompA 2 1
    { id := 1, user := some 1, name := "Acme", website := none, industry := "" }
    { id := 1, user := some 1, company := 1, first_name := "E",
      last_name := "M", email := "", phone := "", position := "" }
    (by decide) (by decide) (by decide) (by decide) (by decide) (by decide) (by decide)

/-- C3: on an application whose current notes are exactly id 1 with text
a and id 2 with text b, the payload [(id 1, text a2), (no id, text c)]
yields exactly: note 1 with text a2 (id and creation timestamp
unchanged), note 2 deleted, and one new note with the freshly assigned
server id and text c — two notes in total.  The freshness of the
auto-increment counter (hk1, hk2) is the store's primary-key
guarantee. -/
theorem reconcile_completeness (db : Db) (appId k : Int) (t1 t2 now : Nat)
    (hnotes : db.notes = [{ id := 1, application := appId, text := "a", created_at := t1 },
                          { id := 2, application := appId, text := "b", created_at := t2 }])
    (hnext : db.nextNoteId = k) (hk1 : k ≠ 1) (hk2 : k ≠ 2) :
    (reconcileNotes db appId [{ id := some 1, text := some "a2" },
                              { id := none, text := some "c" }] now).notes
      = [{ id := 1, application := appId, text := "a2", created_at := t1 },
         { id := k, application := appId, text := "c", created_at := now }] ∧
    (reconcileNotes db appId [{ id := some 1, text := some "a2" },
                              { id := none, text := some "c" }] now).nextNoteId = k + 1 := by
  obtain ⟨cs, cts, apps, nts, nid⟩ := db
  simp only at hnotes hnext
  subst hnotes hnext
  constructor <;>
    simp [reconcileNotes, appNoteIds, processNoteDescr, createNoteStep,
          List.contains, List.elem, hk1, hk2, beq_eq_false_iff_ne]

/-- Witness for C3 at a concrete database (fresh counter 3, application
1, timestamps 0 and 1, reconciliation at time 9). -/
theorem reconcile_completeness_witness :
    ((3 : Int) ≠ 1) ∧ ((3 : Int) ≠ 2) ∧
    ((reconcileNotes
        { companies := [], contacts := [], applications := [],
          notes := [{ id := 1, application := 1, text := "a", created_at := 0 },
                    { id := 2, application := 1, text := "b", created_at := 1 }],
          nextNoteId := 3 } 1
        [{ id := some 1, text := some "a2" }, { id := none, text := some "c" }] 9).notes
      = [{ id := 1, application := 1, text := "a2", created_at := 0 },
         { id := 3, application := 1, text := "c", created_at := 9 }] ∧
     (reconcileNotes
        { companies := [], contacts := [], applications := [],
          notes := [{ id := 1, application := 1, text := "a", created_at := 0 },
                    { id := 2, application := 1, text := "b", created_at := 1 }],
          nextNoteId := 3 } 1
        [{ id := some 1, text := some "a2" }, { id := none, text := some "c" }] 9).nextNoteId = 3 + 1) :=
  ⟨by decide, by decide,
   reconcile_completeness
     { companies := [], contacts := [], applications := [],
       notes := [{ id := 1, application := 1, text := "a", created_at := 0 },
                 { id := 2, application := 1, text := "b", created_at := 1 }],
       nextNoteId := 3 } 1 3 0 1 9 rfl rfl (by decide) (by decide)⟩

/-- C10: a descriptor that matches a current note by id but omits the
text key leaves that note entirely unchanged (its previous body is kept,
since the overwrite falls back to the note's own text), while a
descriptor with neither id nor text creates a fresh note whose text is
the empty string.  hfresh is the store's guarantee that the
auto-increment counter is fresh. -/
theorem note_text_defaults (db : Db) (appId : Int) (now : Nat) (nt : Note)
    (hmem : nt ∈ db.notes) (happ : nt.application = appId) (hz : nt.id ≠ 0)
    (hfresh : ∀ m ∈ db.notes, m.id ≠ db.nextNoteId) :
    nt ∈ (reconcileNotes db appId [{ id := some nt.id, text := none }] now).notes ∧
    ({ id := db.nextNoteId, application := appId, text := "", created_at := now } : Note)
      ∈ (reconcileNotes db appId [{ id := none, text := none }] now).notes := by
  constructor
  · have hmap : db.notes.map (fun x =>
        if x.id = nt.id then { x with text := (none : Option String).getD x.text } else x)
        = db.notes := by
      apply list_map_eq_self
      intro x _
      by_cases hxx : x.id = nt.id
      · rw [if_pos hxx]; rfl
      · rw [if_neg hxx]
    have hstep : processNoteDescr appId (appNoteIds db appId) now
        { db := db, incoming := [] } { id := some nt.id, text := none }
        = { db := db, incoming := [nt.id] } := by
      by_cases hc : (appNoteIds db appId).contains nt.id = true <;>
        simp [processNoteDescr, hz, hc, hmap]
    simp only [reconcileNotes, List.foldl_cons, List.foldl_nil, hstep]
    apply List.mem_filter.mpr
    refine ⟨hmem, ?_⟩
    have hnd : nt.id ∉ (appNoteIds db appId).filter
        (fun i => !(([nt.id] : List Int).contains i)) := by
      intro hmemD
      have h2 := (List.mem_filter.mp hmemD).2
      simp at h2
    simp [hnd]
  · have hE : ∀ i ∈ appNoteIds db appId, i ≠ db.nextNoteId := by
      intro i hi
      have := List.mem_map.mp hi
      obtain ⟨m, hm, hmi⟩ := this
      have hmdb := (List.mem_filter.mp hm).1
      rw [← hmi]
      exact hfresh m hmdb
    simp only [reconcileNotes, List.foldl_cons, List.foldl_nil, processNoteDescr,
               createNoteStep]
    apply List.mem_filter.mpr
    constructor
    · simp
    · have hnmem : db.nextNoteId ∉ appNoteIds db appId := by
        intro hmemD
        exact hE db.nextNoteId hmemD rfl
      simp [hnmem]

/-- Witness for C10 at a concrete one-note database. -/
theorem note_text_defaults_witness :
    ({ id := 1, application := 1, text := "a", created_at := 0 } : Note) ∈ dbOneNote.notes ∧
    (({ id := 1, application := 1, text := "a", created_at := 0 } : Note)
       ∈ (reconcileNotes dbOneNote 1
            [{ id := some 1, text := none }] 9).notes ∧
     ({ id := 7, application := 1, text := "", created_at := 9 } : Note)
       ∈ (reconcileNotes dbOneNote 1 [{ id := none, text := none }] 9).notes) :=
  ⟨by decide,
   note_text_defaults dbOneNote 1 9 { id := 1, application := 1, text := "a", created_at := 0 }
     (by decide) (by decide) (by decide) (by decide)⟩

/-- The reconciliation loop never changes the notes of other
applications: the sub-list of notes not belonging to the target
application is invariant across the whole fold, given unique primary
keys in the starting database. -/
theorem foldl_other_frame (db0 : Db) (appId : Int) (now : Nat)
    (hnd : (db0.notes.map (fun x => x.id)).Nodup) :
    ∀ (l : List NoteDescr) (s : RecState),
      s.db.notes.filter (fun x => !(x.application == appId))
        = db0.notes.filter (fun x => !(x.application == appId)) →
      ((l.foldl (processNoteDescr appId (appNoteIds db0 appId) now) s).db.notes.filter
          (fun x => !(x.application == appId)))
        = db0.notes.filter (fun x => !(x.application == appId)) := by
  intro l
  induction l with
  | nil => intro s h; simpa using h
  | cons d rest ih =>
    intro s h
    rw [List.foldl_cons]
    apply ih
    rcases hd : d.id with _ | n
    · simp [processNoteDescr, hd, createNoteStep, List.filter_append, h]
    · by_cases hz : n ≠ 0
      · by_cases hn : n ∈ appNoteIds db0 appId
        case neg => simp [processNoteDescr, hd, hz, hn, h]
        case pos =>
          obtain ⟨m, hm, hmn⟩ := List.mem_map.mp hn
          have hmdb : m ∈ db0.notes := (List.mem_filter.mp hm).1
          have hmapp : m.application = appId := by
            have := (List.mem_filter.mp hm).2
            simpa using this
          simp only [processNoteDescr, hd]
          rw [if_pos hz]
          have hcc : (appNoteIds db0 appId).contains n = true := by simpa using hn
          rw [if_pos hcc]
          rw [List.filter_map]
          have hcongr : s.db.notes.filter
              ((fun x => !(x.application == appId)) ∘ (fun x : Note =>
                if x.id = n then { x with text := d.text.getD x.text } else x))
              = s.db.notes.filter (fun x => !(x.application == appId)) := by
            apply List.filter_congr
            intro x _
            by_cases hxx : x.id = n <;> simp [Function.comp, hxx]
          rw [hcongr, h]
          apply list_map_eq_self
          intro x hx
          have hxdb : x ∈ db0.notes := (List.mem_filter.mp hx).1
          have hxo : x.application ≠ appId := by
            have := (List.mem_filter.mp hx).2
            simpa using this
          have hxm : x ≠ m := fun hxm => hxo (by rw [hxm, hmapp])
          have hxid : x.id ≠ n := by
            intro hxn
            exact hxm (List.inj_on_of_nodup_map hnd hxdb hmdb (by rw [hxn, hmn]))
          simp [hxid]
      · simp [processNoteDescr, hd, hz, createNoteStep, List.filter_append, h]

/-- C9: note reconciliation on one application leaves every note of
every other application untouched — same ids, texts and creation
timestamps, none deleted and none added — even when an incoming
descriptor carries the id of another application's note. -/
theorem reconcile_frame_other_applications (db : Db) (appId : Int)
    (l : List NoteDescr) (now : Nat)
    (hnd : (db.notes.map (fun x => x.id)).Nodup) :
    (reconcileNotes db appId l now).notes.filter (fun x => !(x.application == appId))
      = db.notes.filter (fun x => !(x.application == appId)) := by
  have hfold := foldl_other_frame db appId now hnd l { db := db, incoming := [] } rfl
  simp only [reconcileNotes]
  rw [List.filter_filter]
  have hcongr : ∀ (tl : List Int) (nts : List Note),
      nts.filter (fun x => !(x.application == appId) &&
        !(x.application == appId && tl.contains x.id))
      = nts.filter (fun x => !(x.application == appId)) := by
    intro tl nts
    apply List.filter_congr
    intro x _
    cases hb : x.application == appId <;> simp [hb]
  rw [hcongr]
  exact hfold

/-- Witness for C9: reconciling application 1 with a descriptor carrying
the id of application 2's note leaves application 2's note list
unchanged. -/
theorem reconcile_frame_other_applications_witness :
    ((([{ id := 1, application := 1, text := "a", created_at := 0 },
        { id := 2, application := 2, text := "z", created_at := 0 }] : List Note).map
          (fun x => x.id)).Nodup) ∧
    (reconcileNotes
        { companies := [], contacts := [], applications := [],
          notes := [{ id := 1, application := 1, text := "a", created_at := 0 },
                    { id := 2, application := 2, text := "z", created_at := 0 }],
          nextNoteId := 3 } 1
        [{ id := some 2, text := some "hijack" }] 9).notes.filter
        (fun x => !(x.application == 1))
      = ([{ id := 1, application := 1, text := "a", created_at := 0 },
          { id := 2, application := 2, text := "z", created_at := 0 }] : List Note).filter
          (fun x => !(x.application == 1)) :=
  ⟨by decide,
   reconcile_frame_other_applications
     { companies := [], contacts := [], applications := [],
       notes := [{ id := 1, application := 1, text := "a", created_at := 0 },
                 { id := 2, application := 2, text := "z", created_at := 0 }],
       nextNoteId := 3 } 1 [{ id := some 2, text := some "hijack" }] 9 (by decide)⟩

/-- When every incoming descriptor carries a truthy id and its text
overwrite is a no-op on the loop's database, the whole loop leaves the
database unchanged and merely records the descriptor ids in
incoming_note_ids. -/
theorem foldl_noop_of_matches (appId : Int) (E : List Int) (now : Nat) (dbs : Db) :
    ∀ (l : List NoteDescr) (acc : List Int),
      (∀ d ∈ l, ∃ n, d.id = some n ∧ n ≠ 0 ∧
        (∀ x ∈ dbs.notes, x.id = n → d.text.getD x.text = x.text)) →
      l.foldl (processNoteDescr appId E now) { db := dbs, incoming := acc }
        = { db := dbs, incoming := acc ++ l.filterMap (fun d => d.id) } := by
  intro l
  induction l with
  | nil => intro acc _; simp
  | cons d rest ih =>
    intro acc hyp
    obtain ⟨n, hdn, hz, hno⟩ := hyp d (List.mem_cons_self d rest)
    have hstep : processNoteDescr appId E now { db := dbs, incoming := acc } d
        = { db := dbs, incoming := acc ++ [n] } := by
      simp only [processNoteDescr, hdn]
      rw [if_pos hz]
      by_cases hc : E.contains n = true
      · rw [if_pos hc]
        have hmap : dbs.notes.map (fun x =>
            if x.id = n then { x with text := d.text.getD x.text } else x) = dbs.notes := by
          apply list_map_eq_self
          intro x hx
          by_cases hxx : x.id = n
          · rw [if_pos hxx, hno x hx hxx]
          · rw [if_neg hxx]
        rw [hmap]
      · rw [if_neg hc]
    rw [List.foldl_cons, hstep,
        ih (acc ++ [n]) (fun d2 hd2 => hyp d2 (List.mem_cons_of_mem d hd2))]
    simp [List.filterMap_cons, hdn, List.append_assoc]

/-- C8: note reconciliation is idempotent — when every incoming
descriptor carries the id of a current note of the application together
with that note's current text, running the reconciliation twice with the
same list produces, after the second run, exactly the database produced
by the first run (same note ids, texts and creation timestamps, and the
same auto-increment counter). -/
theorem reconcile_idempotent (db : Db) (appId : Int) (l : List NoteDescr)
    (now1 now2 : Nat)
    (hnd : (db.notes.map (fun x => x.id)).Nodup)
    (hmatch : matchesCurrent db appId l) :
    reconcileNotes (reconcileNotes db appId l now1) appId l now2
      = reconcileNotes db appId l now1 := by
  have H1 : ∀ d ∈ l, ∃ n, d.id = some n ∧ n ≠ 0 ∧
      (∀ x ∈ db.notes, x.id = n → d.text.getD x.text = x.text) := by
    intro d hd
    obtain ⟨nt, hntdb, hntapp, hntz, hdid, hdtext⟩ := hmatch d hd
    refine ⟨nt.id, hdid, hntz, ?_⟩
    intro x hx hxid
    have hxnt : x = nt := List.inj_on_of_nodup_map hnd hx hntdb hxid
    rw [hdtext, hxnt]
    rfl
  have hrec1 : reconcileNotes db appId l now1
      = { db with notes := db.notes.filter (fun x =>
          !(x.application == appId &&
            ((appNoteIds db appId).filter (fun i =>
              !((l.filterMap (fun d => d.id)).contains i))).contains x.id)) } := by
    simp only [reconcileNotes]
    rw [foldl_noop_of_matches appId (appNoteIds db appId) now1 db l [] H1]
    rw [List.nil_append]
  rw [hrec1]
  have H2 : ∀ d ∈ l, ∃ n, d.id = some n ∧ n ≠ 0 ∧
      (∀ x ∈ ({ db with notes := db.notes.filter (fun x =>
          !(x.application == appId &&
            ((appNoteIds db appId).filter (fun i =>
              !((l.filterMap (fun d => d.id)).contains i))).contains x.id)) } : Db).notes,
        x.id = n → d.text.getD x.text = x.text) := by
    intro d hd
    obtain ⟨n, hdn, hz, hno⟩ := H1 d hd
    exact ⟨n, hdn, hz, fun x hx hxid => hno x (List.mem_of_mem_filter hx) hxid⟩
  have hT2 : (appNoteIds ({ db with notes := db.notes.filter (fun x =>
          !(x.application == appId &&
            ((appNoteIds db appId).filter (fun i =>
              !((l.filterMap (fun d => d.id)).contains i))).contains x.id)) } : Db) appId).filter
        (fun i => !((l.filterMap (fun d => d.id)).contains i)) = [] := by
    apply List.filter_eq_nil_iff.mpr
    intro i hi
    obtain ⟨x, hxF, hxid⟩ := List.mem_map.mp hi
    have hxFmem := (List.mem_filter.mp hxF).1
    have hxapp : x.application = appId := by
      have := (List.mem_filter.mp hxF).2
      simpa using this
    have hxdb : x ∈ db.notes := List.mem_of_mem_filter hxFmem
    have hxkeep := (List.mem_filter.mp hxFmem).2
    have hxE : x.id ∈ appNoteIds db appId :=
      List.mem_map.mpr ⟨x, List.mem_filter.mpr ⟨hxdb, by simp [hxapp]⟩, rfl⟩
    rw [← hxid]
    intro hcontra
    have hIc : (l.filterMap (fun d => d.id)).contains x.id = false := by
      simpa using hcontra
    have hxT : x.id ∈ (appNoteIds db appId).filter
        (fun i => !((l.filterMap (fun d => d.id)).contains i)) :=
      List.mem_filter.mpr ⟨hxE, by rw [hIc]; rfl⟩
    have hbeq : (x.application == appId) = true := by simp [hxapp]
    have hTc : ((appNoteIds db appId).filter (fun i =>
        !((l.filterMap (fun d => d.id)).contains i))).contains x.id = true := by
      simpa using hxT
    rw [hbeq, hTc] at hxkeep
    simp at hxkeep
  simp only [reconcileNotes]
  rw [foldl_noop_of_matches appId _ now2 _ l [] H2]
  rw [List.nil_append, hT2]
  simp

/-- Witness for C8 at a concrete one-note database and the matching
one-descriptor list. -/
theorem reconcile_idempotent_witness :
    matchesCurrent dbOneNote 1 [{ id := some 1, text := some "a" }] ∧
    reconcileNotes (reconcileNotes dbOneNote 1 [{ id := some 1, text := some "a" }] 4) 1
        [{ id := some 1, text := some "a" }] 5
      = reconcileNotes dbOneNote 1 [{ id := some 1, text := some "a" }] 4 := by
  have hm : matchesCurrent dbOneNote 1 [{ id := some 1, text := some "a" }] := by
    intro d hd
    rw [List.mem_singleton] at hd
    subst hd
    exact ⟨{ id := 1, application := 1, text := "a", created_at := 0 },
      by decide, rfl, by decide, rfl, rfl⟩
  exact ⟨hm, reconcile_idempotent dbOneNote 1 [{ id := some 1, text := some "a" }] 4 5
    (by decide) hm⟩

end JobTracker
